import Mathlib

/-!
Verification of the DramaRadar change-detection pipeline
(`scripts/maoyan_web_heat_monitor.py`) against its design specification.

Text is modelled as `List Char` (matching Python's code-point indexing),
the HTML parser as a fold over a stream of parse events, the SQLite ledger
as an association list keyed by name, and `main` as a pure function from
run inputs (parse events, environment, ledger state, external send outcome)
to a run trace.
-/

namespace DramaRadar

/-- Text as a list of characters (Python strings index by code point). -/
abbrev Str := List Char

/-! ## Whitespace normalisation

Python `" ".join(s.split()).strip()`: split on whitespace runs, dropping
empty pieces, and re-join with single spaces (the trailing `strip` is a
no-op after such a join). -/

/-- Helper for `words`: `cur` is the reversed prefix of the word being
scanned; a whitespace character closes it, dropping empty pieces. -/
def wordsAux : Str → Str → List Str
  | cur, [] => if cur = [] then [] else [cur.reverse]
  | cur, c :: rest =>
    if c.isWhitespace then
      if cur = [] then wordsAux [] rest else cur.reverse :: wordsAux [] rest
    else wordsAux (c :: cur) rest

/-- The maximal whitespace-separated words of a string, in order
(Python `str.split()` with no argument). -/
def words (s : Str) : List Str := wordsAux [] s

/-- `" ".join(s.split())`: whitespace-normalised form of a string. -/
def normWs (s : Str) : Str := List.intercalate [' '] (words s)

/-- Strip leading and trailing whitespace (Python `str.strip()`). -/
def trimWs (s : Str) : Str :=
  ((s.dropWhile Char.isWhitespace).reverse.dropWhile Char.isWhitespace).reverse

/-! ## Substring search (Python `str.find` / `in`) -/

/-- Boolean test that `pat` starts the string `s`. -/
def leadsWith : Str → Str → Bool
  | [], _ => true
  | _ :: _, [] => false
  | p :: ps, q :: qs => p == q && leadsWith ps qs

/-- `occursAt pat s i`: the pattern occurs in `s` starting at index `i`. -/
def occursAt (pat s : Str) (i : Nat) : Prop := leadsWith pat (s.drop i) = true

instance (pat s : Str) (i : Nat) : Decidable (occursAt pat s i) := by
  unfold occursAt; infer_instance

/-- Index of the first occurrence of `pat` in `s`
(Python `s.find(pat)`, with `none` for `-1`). -/
def findSub (pat : Str) : Str → Option Nat
  | [] => if leadsWith pat [] then some 0 else none
  | c :: rest =>
    if leadsWith pat (c :: rest) then some 0
    else (findSub pat rest).map (· + 1)

/-! ## Record extraction from an info string (`extract_platform`,
`is_first_day_info`, `extract_online_desc`) -/

/-- The marker substring meaning "went live" (`"上线"`). -/
def onlineMarker : Str := "上线".data

/-- The substring meaning "went live today" (`"上线首日"`). -/
def firstDayMarker : Str := "上线首日".data

/-- `extract_platform`: stable category part of an info string — the
whitespace-normalised text before the first `onlineMarker`, or the whole
normalised string if the marker is absent. -/
def extract_platform (info : Str) : Str :=
  if info = [] then []
  else
    let base :=
      match findSub onlineMarker info with
      | some i => info.take i
      | none => info
    normWs base

/-- `is_first_day_info`: whether the info string contains `firstDayMarker`. -/
def is_first_day_info (info : Str) : Bool :=
  (findSub firstDayMarker info).isSome

/-- `extract_online_desc`: the volatile descriptor — whitespace-normalised
text from the first `onlineMarker` onward, empty if the marker is absent. -/
def extract_online_desc (info : Str) : Str :=
  if info = [] then []
  else
    match findSub onlineMarker info with
    | none => []
    | some i => normWs (info.drop i)

/-! ## Data model -/

/-- One extracted record (`DramaItem` in the source). -/
structure DramaItem where
  name : Str
  platform : Str
  is_first_day : Bool
  online_desc : Str
deriving DecidableEq, Repr

/-- Build a `DramaItem` from a name and its raw info string, as the loop
body of `parse_drama_items` does. -/
def mkItem (name rawInfo : Str) : DramaItem :=
  { name := name
    platform := extract_platform rawInfo
    is_first_day := is_first_day_info rawInfo
    online_desc := extract_online_desc rawInfo }

/-! ## HTML parser (`MaoyanWebHeatParser`)

The standard-library `HTMLParser` dispatches start-tag, character-data and
end-tag events to the handler methods; we model the handlers directly as a
fold over the event stream. -/

/-- Which kind of element is currently being collected. -/
inductive Cur
  | name
  | info
deriving DecidableEq, Repr

/-- Parser state: current element kind, text buffer, and the collected
name and info texts. -/
structure PState where
  current : Option Cur
  buffer : List Str
  names : List Str
  infos : List Str
deriving DecidableEq, Repr

/-- Initial parser state. -/
def initState : PState := ⟨none, [], [], []⟩

/-- First `class` attribute with a non-empty value (the loop with `break`
in `handle_starttag`); empty if there is none. -/
def findClassAttr : List (Str × Option Str) → Str
  | [] => []
  | (k, v) :: rest =>
    match v with
    | some s => if k = "class".data ∧ s ≠ [] then s else findClassAttr rest
    | none => findClassAttr rest

/-- `handle_starttag`: on a `p` tag whose class list contains `video-name`
(resp. `web-info`), start collecting a name (resp. info) text. -/
def handle_starttag (st : PState) (tag : Str)
    (attrs : List (Str × Option Str)) : PState :=
  if tag ≠ "p".data then st
  else if "video-name".data ∈ words (findClassAttr attrs) then
    { st with current := some .name, buffer := [] }
  else if "web-info".data ∈ words (findClassAttr attrs) then
    { st with current := some .info, buffer := [] }
  else st

/-- `handle_data`: buffer non-empty character data while inside an element. -/
def handle_data (st : PState) (d : Str) : PState :=
  match st.current with
  | none => st
  | some _ => if d = [] then st else { st with buffer := st.buffer ++ [d] }

/-- `handle_endtag`: on `</p>` while collecting, normalise the buffered
text; a name is appended only when non-empty, an info always; then the
current marker and buffer are reset. -/
def handle_endtag (st : PState) (tag : Str) : PState :=
  if tag ≠ "p".data then st
  else
    match st.current with
    | none => st
    | some .name =>
      if normWs st.buffer.flatten ≠ [] then
        { st with current := none, buffer := []
                  names := st.names ++ [normWs st.buffer.flatten] }
      else { st with current := none, buffer := [] }
    | some .info =>
      { st with current := none, buffer := []
                infos := st.infos ++ [normWs st.buffer.flatten] }

/-- A parse event delivered by the HTML tokenizer. -/
inductive HEvent
  | startTag (tag : Str) (attrs : List (Str × Option Str))
  | dataEv (d : Str)
  | endTag (tag : Str)
deriving DecidableEq, Repr

/-- Dispatch one event to its handler. -/
def pstep (st : PState) : HEvent → PState
  | .startTag tag attrs => handle_starttag st tag attrs
  | .dataEv d => handle_data st d
  | .endTag tag => handle_endtag st tag

/-- `parser.feed(html)`: fold the event stream from the initial state. -/
def feed (events : List HEvent) : PState :=
  events.foldl pstep initState

/-! ## `parse_drama_items` -/

/-- Error taxonomy of a run. -/
inductive RunError
  | noRecordsFound
  | topNBadInt
  | topNOutOfRange
  | tgConfigMissing
  | tgSendFailed
deriving DecidableEq, Repr

/-- Positional pairing: the i-th name with the i-th info, a missing info
defaulting to the empty string. -/
def pairItems (names infos : List Str) : List DramaItem :=
  (List.range names.length).map (fun i => mkItem (names.getD i []) (infos.getD i []))

/-- Name-keyed deduplication via an insertion-ordered dictionary: a later
item whose name was already seen is dropped. -/
def dedupByName (items : List DramaItem) : List DramaItem :=
  items.foldl
    (fun acc it => if acc.any (fun j => j.name = it.name) then acc else acc ++ [it]) []

/-- `parse_drama_items`: run the parser, fail with `noRecordsFound` when no
names were collected, else pair names with infos and deduplicate by name. -/
def parse_drama_items (events : List HEvent) : Except RunError (List DramaItem) :=
  if (feed events).names = [] then .error .noRecordsFound
  else .ok (dedupByName (pairItems (feed events).names (feed events).infos))

/-- Specification-level dedup (from the spec's words): keep the head, drop
every later record with the same name, recurse on the rest. -/
def dedupSpec : List DramaItem → List DramaItem
  | [] => []
  | x :: xs => x :: dedupSpec (xs.filter (fun y => y.name ≠ x.name))
termination_by l => l.length
decreasing_by
  simpa using Nat.lt_succ_of_le (List.length_filter_le _ xs)

/-! ## Novelty store (the SQLite ledger) -/

/-- One row of the `dramas` table (the name is the association-list key). -/
structure Entry where
  first_seen : Str
  last_seen : Str
  last_info : Str
deriving DecidableEq, Repr

/-- Ledger state: the `dramas` table in row order plus the
`meta.last_run_at` slot. -/
structure DB where
  dramas : List (Str × Entry)
  lastRunAt : Option Str
deriving DecidableEq, Repr

/-- Ledger of a freshly created database file. -/
def emptyDB : DB := ⟨[], none⟩

/-- `SELECT ... WHERE name = ?`: lookup by primary key. -/
def dbLookup (name : Str) (rows : List (Str × Entry)) : Option Entry :=
  (rows.find? (fun p => p.1 = name)).map (·.2)

/-- `db_is_empty`: zero rows in `dramas`. -/
def db_is_empty (db : DB) : Bool := db.dramas.isEmpty

/-- One `INSERT OR IGNORE` row: keep the table unchanged when the name is
already present. -/
def insertIgnoreOne (rows : List (Str × Entry)) (it : DramaItem) (day : Str) :
    List (Str × Entry) :=
  if (dbLookup it.name rows).isSome then rows
  else rows ++ [(it.name, ⟨day, day, it.platform⟩)]

/-- `db_insert_baseline`: insert every item with
`first_seen = last_seen = day` and `last_info = platform`, never
overwriting an existing row; record `last_run_at`. -/
def db_insert_baseline (db : DB) (items : List DramaItem) (day iso : Str) : DB :=
  { dramas := items.foldl (fun rows it => insertIgnoreOne rows it day) db.dramas
    lastRunAt := some iso }

/-- `db_find_new_items`: the input items whose names are absent from the
ledger, in input order. -/
def db_find_new_items (db : DB) (items : List DramaItem) : List DramaItem :=
  items.filter (fun it => (dbLookup it.name db.dramas).isNone)

/-- The `DO UPDATE SET` clause: keep `first_seen`, set `last_seen` to the
run's day, and replace `last_info` only by a non-empty incoming value. -/
def updEntry (it : DramaItem) (day : Str) (e : Entry) : Entry :=
  { first_seen := e.first_seen
    last_seen := day
    last_info := if it.platform ≠ [] then it.platform else e.last_info }

/-- One `INSERT ... ON CONFLICT(name) DO UPDATE` row: a fresh name is
inserted; an existing row is updated in place via `updEntry`. -/
def upsertOne (rows : List (Str × Entry)) (it : DramaItem) (day : Str) :
    List (Str × Entry) :=
  if (dbLookup it.name rows).isSome then
    rows.map (fun p => if p.1 = it.name then (p.1, updEntry it day p.2) else p)
  else rows ++ [(it.name, ⟨day, day, it.platform⟩)]

/-- `db_upsert_items`: upsert every item and record `last_run_at`. -/
def db_upsert_items (db : DB) (items : List DramaItem) (day iso : Str) : DB :=
  { dramas := items.foldl (fun rows it => upsertOne rows it day) db.dramas
    lastRunAt := some iso }

/-! ## Notifier formatter -/

/-- Decimal rendering of a count. -/
def natStr (n : Nat) : Str := (Nat.repr n).data

/-- One bullet line for an item: name, with category and volatile
descriptor in brackets when present. -/
def format_item_line (it : DramaItem) : Str :=
  let parts := (if it.platform ≠ [] then [it.platform] else []) ++
    (if it.online_desc ≠ [] then [it.online_desc] else [])
  if parts ≠ [] then
    "- ".data ++ it.name ++ "（".data ++ List.intercalate "；".data parts ++ "）".data
  else "- ".data ++ it.name

/-- `build_telegram_text`: header with count, one line per new item, then
source and timestamp lines, joined by newlines. -/
def build_telegram_text (newItems : List DramaItem) (datetime : Str) : Str :=
  let lines :=
    ("🎯 发现猫眼网播热度新剧（".data ++ natStr newItems.length ++ "部）".data) ::
      (newItems.map format_item_line ++
        ["来源：https://piaofang.maoyan.com/web-heat".data,
         "时间：".data ++ datetime])
  List.intercalate ['\n'] lines

/-! ## Top-N configuration (`get_top_n_from_env`) -/

/-- `DEFAULT_TOP_N`. -/
def DEFAULT_TOP_N : Nat := 10

/-- Value of an all-digit, non-empty string. -/
def digitsVal (s : Str) : Nat :=
  s.foldl (fun acc c => acc * 10 + (c.toNat - 48)) 0

/-- Parse a non-empty digit string. -/
def parseDigits (s : Str) : Option Nat :=
  if s ≠ [] ∧ s.all Char.isDigit then some (digitsVal s) else none

/-- Python `int(raw)` on an already-trimmed string: optional sign then
digits; `none` when not an integer literal. -/
def parseIntStr : Str → Option Int
  | [] => none
  | '+' :: rest => (parseDigits rest).map (fun n => (n : Int))
  | '-' :: rest => (parseDigits rest).map (fun n => -(n : Int))
  | s => (parseDigits s).map (fun n => (n : Int))

/-- `get_top_n_from_env`: default 10 when the variable is unset or blank;
error when not an integer or outside 1–100. -/
def get_top_n_from_env (env : Option Str) : Except RunError Nat :=
  let raw := trimWs (env.getD [])
  if raw = [] then .ok DEFAULT_TOP_N
  else
    match parseIntStr raw with
    | none => .error .topNBadInt
    | some n =>
      if n ≤ 0 ∨ 100 < n then .error .topNOutOfRange else .ok n.toNat

/-! ## Orchestrator (`main`) -/

/-- Command-line arguments relevant to the pipeline. -/
structure Args where
  dryRun : Bool
  noTelegram : Bool
deriving DecidableEq, Repr

/-- Inputs of one run: the fetched page's parse events, the `TOP_N`
environment value, the Telegram credentials, the ledger file state
(`none` when the file does not exist), the external sender's outcome,
and the run timestamps. -/
structure RunInput where
  events : List HEvent
  envTopN : Option Str
  botToken : Str
  chatId : Str
  db : Option DB
  sendOk : Bool
  day : Str
  iso : Str
  datetime : Str
deriving DecidableEq, Repr

instance {ε α : Type} [DecidableEq ε] [DecidableEq α] : DecidableEq (Except ε α)
  | .ok a, .ok b =>
    match decEq a b with
    | isTrue h => isTrue (congrArg Except.ok h)
    | isFalse h => isFalse (fun hc => h (Except.ok.inj hc))
  | .error a, .error b =>
    match decEq a b with
    | isTrue h => isTrue (congrArg Except.error h)
    | isFalse h => isFalse (fun hc => h (Except.error.inj hc))
  | .ok _, .error _ => isFalse (fun hc => Except.noConfusion hc)
  | .error _, .ok _ => isFalse (fun hc => Except.noConfusion hc)

/-- Observable trace of one run: the result (exit code or error), the
ledger file state afterwards, every formatter invocation's output, every
message successfully delivered, the number of `db_upsert_items` calls, and
the post-truncation record list. -/
structure RunTrace where
  result : Except RunError Nat
  db : Option DB
  rendered : List Str
  sent : List Str
  upserts : Nat
  items : List DramaItem
deriving DecidableEq, Repr

/-- The `main` pipeline after a successful fetch: parse, truncate to
top-N, then baseline or delta path, mirroring the source control flow. -/
def run (a : Args) (inp : RunInput) : RunTrace :=
  match parse_drama_items inp.events with
  | .error e => ⟨.error e, inp.db, [], [], 0, []⟩
  | .ok items0 =>
    match get_top_n_from_env inp.envTopN with
    | .error e => ⟨.error e, inp.db, [], [], 0, []⟩
    | .ok topN =>
      let items := items0.take topN
      if a.dryRun ∧ inp.db = none then
        ⟨.ok 0, none, [], [], 0, items⟩
      else
        let db0 := inp.db.getD emptyDB
        if db_is_empty db0 then
          if a.dryRun then ⟨.ok 0, inp.db, [], [], 0, items⟩
          else
            ⟨.ok 0, some (db_insert_baseline db0 items inp.day inp.iso),
              [], [], 0, items⟩
        else
          let newItems := db_find_new_items db0 items
          if a.dryRun then
            ⟨.ok 0, inp.db,
              if newItems ≠ [] then [build_telegram_text newItems inp.datetime] else [],
              [], 0, items⟩
          else
            if newItems ≠ [] ∧ a.noTelegram = false then
              let text := build_telegram_text newItems inp.datetime
              if inp.botToken = [] ∨ inp.chatId = [] then
                ⟨.error .tgConfigMissing, some db0, [text], [], 0, items⟩
              else if inp.sendOk = false then
                ⟨.error .tgSendFailed, some db0, [text], [], 0, items⟩
              else
                ⟨.ok 0, some (db_upsert_items db0 items inp.day inp.iso),
                  [text], [text], 1, items⟩
            else
              ⟨.ok 0, some (db_upsert_items db0 items inp.day inp.iso),
                [], [], 1, items⟩

/-- The `__main__` wrapper: exit code 0 from a completed run, 1 when any
error escapes. -/
def main_exit (a : Args) (inp : RunInput) : Nat :=
  match (run a inp).result with
  | .ok n => n
  | .error _ => 1

/-! ## Concrete fixtures for witnesses -/

/-- Events of one `<p class="video-name">…</p><p class="web-info">…</p>`
pair as the tokenizer delivers them. -/
def recordEvents (name info : String) : List HEvent :=
  [.startTag "p".data [("class".data, some "video-name".data)],
   .dataEv name.data, .endTag "p".data,
   .startTag "p".data [("class".data, some "web-info".data)],
   .dataEv info.data, .endTag "p".data]

/-- The spec's concrete dedup scenario: `Show A` appears twice. -/
def demoEvents : List HEvent :=
  recordEvents "Show A" "PlatformX 上线首日" ++
    recordEvents "Show B" "PlatformY 上线8天" ++
    recordEvents "Show A" "PlatformZ 上线2天"

/-- A ledger already holding `Show A` only. -/
def dbShowA : DB :=
  ⟨[("Show A".data, ⟨"2026-10-01".data, "2026-10-10".data, "PlatformX".data⟩)],
    some "2026-10-10T08:00:00+08:00".data⟩

/-- Default arguments: a real run, notifications enabled. -/
def argsDefault : Args := ⟨false, false⟩

/-- Delta-path input: ledger holds `Show A`, the page yields `Show A` and
`Show B`, credentials are configured, and the external sender fails. -/
def inputSendFail : RunInput :=
  { events := demoEvents
    envTopN := none
    botToken := "token".data
    chatId := "chat".data
    db := some dbShowA
    sendOk := false
    day := "2026-10-12".data
    iso := "2026-10-12T08:00:00+08:00".data
    datetime := "2026-10-12 08:00:00".data }

/-- The same delta-path input with a succeeding sender. -/
def inputSendOk : RunInput := { inputSendFail with sendOk := true }

/-- First-run input: the ledger file does not exist yet. -/
def inputBaseline : RunInput := { inputSendOk with db := none }

/-- Input whose markup yields no name elements at all. -/
def inputNoRecords : RunInput := { inputSendOk with events := [] }

/-- Markup events for eleven records with pairwise-distinct names. -/
def events11 : List HEvent :=
  (List.range 11).flatMap
    (fun i => recordEvents (String.mk ('N' :: (Nat.repr i).data)) "P 上线首日")

/-- Input with eleven extracted records and no configured top-N limit. -/
def input11 : RunInput := { inputSendOk with events := events11 }

/-! ## Substring search: `findSub` returns the least occurrence index -/

theorem occursAt_nil (pat : Str) (i : Nat) :
    occursAt pat [] i ↔ leadsWith pat [] = true := by
  simp [occursAt]

theorem occursAt_zero (pat s : Str) :
    occursAt pat s 0 ↔ leadsWith pat s = true := by
  simp [occursAt]

theorem occursAt_succ_cons (pat s : Str) (c : Char) (i : Nat) :
    occursAt pat (c :: s) (i + 1) ↔ occursAt pat s i := by
  simp [occursAt]

theorem findSub_eq_some_iff (pat : Str) : ∀ (s : Str) (i : Nat),
    findSub pat s = some i ↔
      (occursAt pat s i ∧ ∀ j, j < i → ¬ occursAt pat s j) := by
  intro s
  induction s with
  | nil =>
    intro i
    unfold findSub
    by_cases h : leadsWith pat [] = true
    · rw [if_pos h]
      constructor
      · intro hi
        injection hi with hi
        subst hi
        exact ⟨(occursAt_nil pat 0).mpr h, fun j hj => absurd hj (Nat.not_lt_zero j)⟩
      · rintro ⟨-, hmin⟩
        rcases Nat.eq_zero_or_pos i with hz | hp
        · rw [hz]
        · exact absurd ((occursAt_nil pat 0).mpr h) (hmin 0 hp)
    · rw [if_neg h]
      constructor
      · intro hi
        exact absurd hi (by simp)
      · rintro ⟨hocc, -⟩
        exact absurd ((occursAt_nil pat i).mp hocc) h
  | cons c rest ih =>
    intro i
    unfold findSub
    by_cases h : leadsWith pat (c :: rest) = true
    · rw [if_pos h]
      constructor
      · intro hi
        injection hi with hi
        subst hi
        exact ⟨(occursAt_zero pat _).mpr h, fun j hj => absurd hj (Nat.not_lt_zero j)⟩
      · rintro ⟨-, hmin⟩
        rcases Nat.eq_zero_or_pos i with hz | hp
        · rw [hz]
        · exact absurd ((occursAt_zero pat _).mpr h) (hmin 0 hp)
    · rw [if_neg h]
      cases i with
      | zero =>
        constructor
        · intro hi
          rcases Option.map_eq_some'.mp hi with ⟨i0, -, hbad⟩
          exact absurd hbad (by omega)
        · rintro ⟨hocc, -⟩
          exact absurd ((occursAt_zero pat _).mp hocc) h
      | succ j =>
        constructor
        · intro hi
          rcases Option.map_eq_some'.mp hi with ⟨i0, hi0, hij⟩
          have hj : i0 = j := by omega
          rw [hj] at hi0
          rcases (ih j).mp hi0 with ⟨hocc, hmin⟩
          refine ⟨(occursAt_succ_cons pat rest c j).mpr hocc, ?_⟩
          intro k hk
          cases k with
          | zero =>
            rw [occursAt_zero]
            simp [h]
          | succ k0 =>
            rw [occursAt_succ_cons]
            exact hmin k0 (by omega)
        · rintro ⟨hocc, hmin⟩
          have hocc0 : occursAt pat rest j := (occursAt_succ_cons pat rest c j).mp hocc
          have hmin0 : ∀ k, k < j → ¬ occursAt pat rest k := by
            intro k hk hbad
            exact hmin (k + 1) (by omega) ((occursAt_succ_cons pat rest c k).mpr hbad)
          rw [(ih j).mpr ⟨hocc0, hmin0⟩]
          rfl

theorem findSub_eq_none_iff (pat : Str) : ∀ (s : Str),
    findSub pat s = none ↔ ∀ i, ¬ occursAt pat s i := by
  intro s
  induction s with
  | nil =>
    unfold findSub
    by_cases h : leadsWith pat [] = true
    · rw [if_pos h]
      constructor
      · intro hbad
        exact absurd hbad (by simp)
      · intro hall
        exact absurd ((occursAt_nil pat 0).mpr h) (hall 0)
    · rw [if_neg h]
      constructor
      · intro _ i hbad
        exact absurd ((occursAt_nil pat i).mp hbad) h
      · intro _
        rfl
  | cons c rest ih =>
    unfold findSub
    by_cases h : leadsWith pat (c :: rest) = true
    · rw [if_pos h]
      constructor
      · intro hbad
        exact absurd hbad (by simp)
      · intro hall
        exact absurd ((occursAt_zero pat _).mpr h) (hall 0)
    · rw [if_neg h]
      constructor
      · intro hnone i hbad
        have hrest : findSub pat rest = none := by
          cases hv : findSub pat rest with
          | none => rfl
          | some v =>
            rw [hv] at hnone
            exact absurd hnone (by simp)
        cases i with
        | zero => exact absurd ((occursAt_zero pat _).mp hbad) h
        | succ j =>
          exact (ih.mp hrest j) ((occursAt_succ_cons pat rest c j).mp hbad)
      · intro hall
        have hrest : ∀ i, ¬ occursAt pat rest i := fun i hbad =>
          hall (i + 1) ((occursAt_succ_cons pat rest c i).mpr hbad)
        rw [ih.mpr hrest]
        rfl

/-- Claim C7: for every info string, the derived category is the
whitespace-normalised text before the first occurrence of the "went live"
marker (the whole normalised string when the marker is absent),
`is_first_day` holds exactly when the "went live today" substring occurs
somewhere, and the volatile descriptor is the whitespace-normalised text
from the marker onward (empty when the marker is absent). -/
theorem C7_info_string_derivation (info : Str) :
    (is_first_day_info info = true ↔ ∃ i, occursAt firstDayMarker info i) ∧
    (∀ i, occursAt onlineMarker info i →
      (∀ j, j < i → ¬ occursAt onlineMarker info j) →
      extract_platform info = normWs (info.take i) ∧
      extract_online_desc info = normWs (info.drop i)) ∧
    ((∀ i, ¬ occursAt onlineMarker info i) →
      extract_platform info = normWs info ∧ extract_online_desc info = []) := by
  refine ⟨?_, ?_, ?_⟩
  · constructor
    · intro h
      rcases Option.isSome_iff_exists.mp h with ⟨i, hi⟩
      exact ⟨i, ((findSub_eq_some_iff firstDayMarker info i).mp hi).1⟩
    · rintro ⟨i, hi⟩
      by_contra hne
      have hnone : findSub firstDayMarker info = none := by
        cases hv : findSub firstDayMarker info with
        | none => rfl
        | some v =>
          exact absurd (by simp [is_first_day_info, hv]) hne
      exact (findSub_eq_none_iff firstDayMarker info).mp hnone i hi
  · intro i hocc hmin
    have hinfo : info ≠ [] := by
      intro hz
      rw [hz] at hocc
      exact absurd ((occursAt_nil onlineMarker i).mp hocc) (by decide)
    have hfind : findSub onlineMarker info = some i :=
      (findSub_eq_some_iff onlineMarker info i).mpr ⟨hocc, hmin⟩
    constructor
    · rw [extract_platform, if_neg hinfo, hfind]
    · rw [extract_online_desc, if_neg hinfo, hfind]
  · intro hall
    have hfind : findSub onlineMarker info = none :=
      (findSub_eq_none_iff onlineMarker info).mpr hall
    constructor
    · by_cases hz : info = []
      · subst hz; rfl
      · rw [extract_platform, if_neg hz, hfind]
    · by_cases hz : info = []
      · subst hz; rfl
      · rw [extract_online_desc, if_neg hz, hfind]

/-! ## Deduplication by first occurrence of a name -/

theorem dedupByName_aux (items : List DramaItem) : ∀ acc : List DramaItem,
    items.foldl
      (fun acc it => if acc.any (fun j => j.name = it.name) then acc else acc ++ [it]) acc
    = acc ++ dedupSpec (items.filter (fun y => !(acc.any (fun j => j.name = y.name)))) := by
  induction items with
  | nil =>
    intro acc
    simp [dedupSpec]
  | cons x xs ih =>
    intro acc
    by_cases hx : acc.any (fun j => j.name = x.name) = true
    · rw [List.foldl_cons, if_pos hx, ih acc,
        List.filter_cons_of_neg (by simp [hx])]
    · rw [List.foldl_cons, if_neg hx, ih (acc ++ [x]),
        List.filter_cons_of_pos (by simp [Bool.not_eq_true] at hx ⊢; exact hx),
        dedupSpec, List.filter_filter, List.append_assoc, List.singleton_append]
      have hfil :
          xs.filter (fun y => !((acc ++ [x]).any (fun j => j.name = y.name)))
          = xs.filter (fun y =>
              decide (y.name ≠ x.name) && !(acc.any (fun j => j.name = y.name))) := by
        apply List.filter_congr
        intro y _
        simp [List.any_append, Bool.not_or, Bool.and_comm, eq_comm]
      rw [hfil]

theorem dedupByName_eq_spec (items : List DramaItem) :
    dedupByName items = dedupSpec items := by
  have h := dedupByName_aux items []
  simpa [dedupByName] using h

theorem dedupSpec_sublist : ∀ l : List DramaItem, (dedupSpec l).Sublist l := by
  intro l
  induction l using dedupSpec.induct with
  | case1 =>
    rw [dedupSpec]
  | case2 x xs ih =>
    rw [dedupSpec]
    exact ((ih.trans (List.filter_sublist xs)).cons₂ x)

theorem dedupSpec_pairwise :
    ∀ l : List DramaItem, (dedupSpec l).Pairwise (fun a b => a.name ≠ b.name) := by
  intro l
  induction l using dedupSpec.induct with
  | case1 =>
    rw [dedupSpec]
    exact List.Pairwise.nil
  | case2 x xs ih =>
    rw [dedupSpec]
    refine List.Pairwise.cons ?_ ih
    intro y hy
    have hmem : y ∈ xs.filter (fun z => z.name ≠ x.name) :=
      (dedupSpec_sublist _).subset hy
    have hne := (List.mem_filter.mp hmem).2
    simp only [decide_eq_true_eq] at hne
    exact fun hbad => hne hbad.symm

theorem dedupSpec_covers :
    ∀ (l : List DramaItem) (it : DramaItem), it ∈ l →
      ∃ u, u ∈ dedupSpec l ∧ u.name = it.name := by
  intro l
  induction l using dedupSpec.induct with
  | case1 =>
    intro it hit
    exact absurd hit (List.not_mem_nil it)
  | case2 x xs ih =>
    intro it hit
    rw [dedupSpec]
    rcases List.mem_cons.mp hit with rfl | hxs
    · exact ⟨it, List.mem_cons_self _ _, rfl⟩
    · by_cases hname : it.name = x.name
      · exact ⟨x, List.mem_cons_self _ _, hname.symm⟩
      · rcases ih it (List.mem_filter.mpr ⟨hxs, by simpa using hname⟩) with ⟨u, hu, hun⟩
        exact ⟨u, List.mem_cons_of_mem _ hu, hun⟩

/-- Characterisation of a successful `parse_drama_items` call. -/
theorem parse_ok_iff (events : List HEvent) (items : List DramaItem) :
    parse_drama_items events = .ok items ↔
      (feed events).names ≠ [] ∧
      items = dedupByName (pairItems (feed events).names (feed events).infos) := by
  unfold parse_drama_items
  by_cases h : (feed events).names = []
  · simp [h]
  · simp [h, eq_comm]

/-! ## Parser invariants -/

theorem pstep_names_inv (st : PState) (e : HEvent)
    (h : ∀ n ∈ st.names, n ≠ []) : ∀ n ∈ (pstep st e).names, n ≠ [] := by
  cases e with
  | startTag tag attrs =>
    show ∀ n ∈ (handle_starttag st tag attrs).names, n ≠ []
    unfold handle_starttag
    split
    · exact h
    · split
      · exact h
      · split
        · exact h
        · exact h
  | dataEv d =>
    show ∀ n ∈ (handle_data st d).names, n ≠ []
    unfold handle_data
    split
    · exact h
    · split
      · exact h
      · exact h
  | endTag tag =>
    show ∀ n ∈ (handle_endtag st tag).names, n ≠ []
    unfold handle_endtag
    split
    · exact h
    · split
      · exact h
      · split
        · intro n hn
          rcases List.mem_append.mp hn with hold | hnew
          · exact h n hold
          · rw [List.mem_singleton.mp hnew]
            assumption
        · exact h
      · exact h

theorem feed_aux_names_inv : ∀ (events : List HEvent) (st : PState),
    (∀ n ∈ st.names, n ≠ []) → ∀ n ∈ (events.foldl pstep st).names, n ≠ [] := by
  intro events
  induction events with
  | nil =>
    intro st h
    exact h
  | cons e rest ih =>
    intro st h
    exact ih (pstep st e) (pstep_names_inv st e h)

theorem feed_names_nonempty (events : List HEvent) :
    ∀ n ∈ (feed events).names, n ≠ [] := by
  unfold feed
  exact feed_aux_names_inv events initState (by intro n hn; exact absurd hn (by simp [initState]))

/-- An item built from an absent info string has the empty descriptor. -/
theorem mkItem_nil (name : Str) :
    mkItem name [] =
      { name := name, platform := [], is_first_day := false, online_desc := [] } := by
  rfl

theorem pairItems_length (names infos : List Str) :
    (pairItems names infos).length = names.length := by
  simp [pairItems]

theorem pairItems_get (names infos : List Str) (i : Nat)
    (h : i < names.length) (h2 : i < (pairItems names infos).length) :
    (pairItems names infos).get ⟨i, h2⟩ =
      mkItem (names.get ⟨i, h⟩) (infos.getD i []) := by
  simp [pairItems, List.getD_eq_getElem?_getD, List.getElem?_eq_getElem h]

theorem pairItems_name_mem (names infos : List Str) :
    ∀ it ∈ pairItems names infos, it.name ∈ names := by
  intro it hit
  rcases List.mem_map.mp hit with ⟨i, hi, hmk⟩
  have hlt : i < names.length := List.mem_range.mp hi
  rw [← hmk]
  show names.getD i [] ∈ names
  rw [List.getD_eq_getElem names [] hlt]
  exact names.getElem_mem hlt

/-- Claim C7 witness: concrete evaluation on the info string
`"芒果TV独播 上线首日"`, whose first marker occurrence is at index 7. -/
theorem C7_witness :
    extract_platform "芒果TV独播 上线首日".data = "芒果TV独播".data ∧
    extract_online_desc "芒果TV独播 上线首日".data = "上线首日".data ∧
    is_first_day_info "芒果TV独播 上线首日".data = true := by
  have h := C7_info_string_derivation "芒果TV独播 上线首日".data
  have h2 := h.2.1 7 (by decide) (by decide)
  exact ⟨h2.1.trans (by decide), h2.2.trans (by decide), h.1.mpr ⟨7, by decide⟩⟩

/-- Claim C4: extraction deduplicates by name, keeping only the first
occurrence of each name in document order: the extracted list equals the
keep-first recursion `dedupSpec`, is a sublist of the positionally paired
records (document order preserved), has pairwise-distinct names (all later
duplicates dropped), and retains some record for every paired name. -/
theorem C4_dedup_keeps_first_occurrence (events : List HEvent)
    (items : List DramaItem) (hp : parse_drama_items events = .ok items) :
    items = dedupSpec (pairItems (feed events).names (feed events).infos) ∧
    items.Sublist (pairItems (feed events).names (feed events).infos) ∧
    items.Pairwise (fun a b => a.name ≠ b.name) ∧
    (∀ it ∈ pairItems (feed events).names (feed events).infos,
      ∃ u, u ∈ items ∧ u.name = it.name) := by
  rcases (parse_ok_iff events items).mp hp with ⟨-, hitems⟩
  rw [hitems, dedupByName_eq_spec]
  exact ⟨rfl, dedupSpec_sublist _, dedupSpec_pairwise _, dedupSpec_covers _⟩

/-- Claim C4 witness: the spec's concrete scenario — `Show A` twice with
different descriptors, only the first survives, order kept. -/
theorem C4_witness :
    parse_drama_items demoEvents =
      .ok [mkItem "Show A".data "PlatformX 上线首日".data,
           mkItem "Show B".data "PlatformY 上线8天".data] ∧
    [mkItem "Show A".data "PlatformX 上线首日".data,
     mkItem "Show B".data "PlatformY 上线8天".data].Pairwise
      (fun a b => a.name ≠ b.name) := by
  refine ⟨by decide, ?_⟩
  exact (C4_dedup_keeps_first_occurrence demoEvents _ (by decide)).2.2.1

/-- Claim C8: positional pairing — the i-th info is attached to the i-th
name, and when fewer infos than names exist the missing info defaults to
the empty descriptor (empty category, `is_first_day = false`, empty
volatile descriptor). -/
theorem C8_positional_pairing (names infos : List Str) (i : Nat)
    (h : i < names.length) (h2 : i < (pairItems names infos).length) :
    (pairItems names infos).length = names.length ∧
    (pairItems names infos).get ⟨i, h2⟩ =
      mkItem (names.get ⟨i, h⟩) (infos.getD i []) ∧
    (infos.length ≤ i →
      (pairItems names infos).get ⟨i, h2⟩ =
        { name := names.get ⟨i, h⟩
          platform := []
          is_first_day := false
          online_desc := [] }) := by
  refine ⟨pairItems_length names infos, pairItems_get names infos i h h2, ?_⟩
  intro hge
  rw [pairItems_get names infos i h h2, List.getD_eq_default infos [] hge]
  exact mkItem_nil _

/-- Claim C8 witness: two names, one info — position 1 pairs with the
default empty descriptor. -/
theorem C8_witness :
    (pairItems ["A".data, "B".data] ["i1".data]).length = 2 ∧
    (pairItems ["A".data, "B".data] ["i1".data]).get ⟨1, by decide⟩ =
      { name := "B".data
        platform := []
        is_first_day := false
        online_desc := [] } := by
  have h := C8_positional_pairing ["A".data, "B".data] ["i1".data] 1
    (by decide) (by decide)
  exact ⟨h.1, h.2.2 (by decide)⟩

/-- Claim C10: every extracted record has a non-empty name — a name
element whose normalised text is empty is skipped entirely (parser state
unchanged apart from closing the element, so it occupies no position),
while an info element's text is appended even when empty (it does occupy a
position). -/
theorem C10_empty_name_skipped (events : List HEvent) (st : PState) :
    (∀ n ∈ (feed events).names, n ≠ []) ∧
    (∀ items, parse_drama_items events = .ok items → ∀ it ∈ items, it.name ≠ []) ∧
    (st.current = some Cur.name → normWs st.buffer.flatten = [] →
      handle_endtag st "p".data = { st with current := none, buffer := [] }) ∧
    (st.current = some Cur.info →
      (handle_endtag st "p".data).infos = st.infos ++ [normWs st.buffer.flatten] ∧
      (handle_endtag st "p".data).names = st.names) := by
  refine ⟨feed_names_nonempty events, ?_, ?_, ?_⟩
  · intro items hp it hit
    rcases (parse_ok_iff events items).mp hp with ⟨-, hitems⟩
    have hmem : it ∈ pairItems (feed events).names (feed events).infos := by
      have hsub := dedupSpec_sublist
        (pairItems (feed events).names (feed events).infos)
      rw [hitems, dedupByName_eq_spec]
      at hit
      exact hsub.subset hit
    exact feed_names_nonempty events it.name
      (pairItems_name_mem (feed events).names (feed events).infos it hmem)
  · intro hcur htext
    unfold handle_endtag
    rw [if_neg (by simp), hcur]
    rw [if_neg (by simpa using htext)]
  · intro hcur
    unfold handle_endtag
    rw [if_neg (by simp), hcur]
    exact ⟨rfl, rfl⟩

/-- Claim C10 witness: a name element whose text is only whitespace is
skipped; an info element with empty text still takes a slot. -/
theorem C10_witness :
    handle_endtag ⟨some Cur.name, ["  ".data], ["X".data], []⟩ "p".data =
      ⟨none, [], ["X".data], []⟩ ∧
    (handle_endtag ⟨some Cur.info, [], ["X".data], []⟩ "p".data).infos = [[]] := by
  have h1 := (C10_empty_name_skipped [] ⟨some Cur.name, ["  ".data], ["X".data], []⟩).2.2.1
    rfl (by decide)
  have h2 := (C10_empty_name_skipped [] ⟨some Cur.info, [], ["X".data], []⟩).2.2.2
    rfl
  exact ⟨h1, h2.1.trans (by decide)⟩

/-! ## Ledger lemmas -/

theorem dbLookup_append_of_some (name : Str) (rows l2 : List (Str × Entry))
    (e0 : Entry) (h : dbLookup name rows = some e0) :
    dbLookup name (rows ++ l2) = some e0 := by
  unfold dbLookup at h ⊢
  rw [List.find?_append]
  rcases Option.map_eq_some'.mp h with ⟨p, hp, hpe⟩
  rw [hp]
  simpa using hpe

theorem dbLookup_append_self (k : Str) (rows : List (Str × Entry)) (e : Entry)
    (h : dbLookup k rows = none) :
    dbLookup k (rows ++ [(k, e)]) = some e := by
  unfold dbLookup at h ⊢
  rw [List.find?_append]
  have hrows : rows.find? (fun p => p.1 = k) = none := by
    cases hv : rows.find? (fun p => p.1 = k) with
    | none => rfl
    | some p =>
      rw [hv] at h
      exact absurd h (by simp)
  rw [hrows]
  simp [List.find?]

theorem insertIgnoreOne_lookup_of_some (rows : List (Str × Entry))
    (it : DramaItem) (day name : Str) (e0 : Entry)
    (h : dbLookup name rows = some e0) :
    dbLookup name (insertIgnoreOne rows it day) = some e0 := by
  unfold insertIgnoreOne
  split
  · exact h
  · exact dbLookup_append_of_some name rows _ e0 h

theorem dbLookup_cons (p : Str × Entry) (rest : List (Str × Entry)) (name : Str) :
    dbLookup name (p :: rest) = if p.1 = name then some p.2 else dbLookup name rest := by
  unfold dbLookup
  by_cases hp : p.1 = name
  · rw [List.find?_cons_of_pos _ (by simpa using hp), if_pos hp]
    rfl
  · rw [List.find?_cons_of_neg _ (by simpa using hp), if_neg hp]

theorem insertIgnoreOne_lookup_self (rows : List (Str × Entry))
    (it : DramaItem) (day : Str) :
    (dbLookup it.name (insertIgnoreOne rows it day)).isSome := by
  unfold insertIgnoreOne
  split
  · assumption
  · rename_i hnot
    have hnone : dbLookup it.name rows = none :=
      Option.not_isSome_iff_eq_none.mp (by simpa using hnot)
    rw [dbLookup_append_self it.name rows _ hnone]
    rfl

theorem baseline_fold_preserves (day : Str) :
    ∀ (items : List DramaItem) (rows : List (Str × Entry)) (name : Str) (e0 : Entry),
      dbLookup name rows = some e0 →
      dbLookup name (items.foldl (fun r it => insertIgnoreOne r it day) rows) = some e0 := by
  intro items
  induction items with
  | nil =>
    intro rows name e0 h
    exact h
  | cons x xs ih =>
    intro rows name e0 h
    exact ih _ name e0 (insertIgnoreOne_lookup_of_some rows x day name e0 h)

theorem baseline_fold_covers (day : Str) :
    ∀ (items : List DramaItem) (rows : List (Str × Entry)) (it : DramaItem),
      it ∈ items →
      (dbLookup it.name (items.foldl (fun r i => insertIgnoreOne r i day) rows)).isSome := by
  intro items
  induction items with
  | nil =>
    intro rows it hit
    exact absurd hit (List.not_mem_nil it)
  | cons x xs ih =>
    intro rows it hit
    rcases List.mem_cons.mp hit with rfl | hxs
    · rcases Option.isSome_iff_exists.mp (insertIgnoreOne_lookup_self rows it day)
        with ⟨e0, he0⟩
      rw [List.foldl_cons, baseline_fold_preserves day xs _ it.name e0 he0]
      rfl
    · exact ih _ it hxs

theorem dbLookup_mapUpdate (name : Str) (g : Entry → Entry) :
    ∀ rows : List (Str × Entry),
      dbLookup name (rows.map (fun p => if p.1 = name then (p.1, g p.2) else p))
        = (dbLookup name rows).map g := by
  intro rows
  induction rows with
  | nil => rfl
  | cons p rest ih =>
    by_cases hp : p.1 = name
    · rw [List.map_cons, if_pos hp, dbLookup_cons, dbLookup_cons,
        if_pos (show ((p.1, g p.2) : Str × Entry).1 = name from hp), if_pos hp]
      rfl
    · rw [List.map_cons, if_neg hp, dbLookup_cons, dbLookup_cons,
        if_neg hp, if_neg hp]
      exact ih

theorem dbLookup_mapUpdate_other (key name : Str) (g : Entry → Entry)
    (hne : name ≠ key) :
    ∀ rows : List (Str × Entry),
      dbLookup name (rows.map (fun p => if p.1 = key then (p.1, g p.2) else p))
        = dbLookup name rows := by
  intro rows
  induction rows with
  | nil => rfl
  | cons p rest ih =>
    by_cases hq : p.1 = key
    · have hp : ¬ p.1 = name := by
        rw [hq]
        exact fun hh => hne hh.symm
      rw [List.map_cons, if_pos hq, dbLookup_cons, dbLookup_cons,
        if_neg (show ¬ ((p.1, g p.2) : Str × Entry).1 = name from hp), if_neg hp]
      exact ih
    · by_cases hp : p.1 = name
      · rw [List.map_cons, if_neg hq, dbLookup_cons, dbLookup_cons,
          if_pos hp, if_pos hp]
      · rw [List.map_cons, if_neg hq, dbLookup_cons, dbLookup_cons,
          if_neg hp, if_neg hp]
        exact ih

theorem upsertOne_lookup_self (rows : List (Str × Entry)) (it : DramaItem)
    (day : Str) (e0 : Entry) (h : dbLookup it.name rows = some e0) :
    dbLookup it.name (upsertOne rows it day) = some (updEntry it day e0) := by
  unfold upsertOne
  rw [if_pos (by rw [h]; rfl), dbLookup_mapUpdate it.name (updEntry it day) rows, h]
  rfl

theorem upsertOne_lookup_other (rows : List (Str × Entry)) (it : DramaItem)
    (day name : Str) (e0 : Entry) (hne : name ≠ it.name)
    (h : dbLookup name rows = some e0) :
    dbLookup name (upsertOne rows it day) = some e0 := by
  unfold upsertOne
  split
  · rw [dbLookup_mapUpdate_other it.name name (updEntry it day) hne rows]
    exact h
  · exact dbLookup_append_of_some name rows _ e0 h

theorem upsert_fold_existing (day : Str) :
    ∀ (items : List DramaItem) (rows : List (Str × Entry)) (name : Str) (e0 : Entry),
      dbLookup name rows = some e0 →
      ∃ e2, dbLookup name (items.foldl (fun r it => upsertOne r it day) rows) = some e2 ∧
        e2.first_seen = e0.first_seen ∧
        (e2.last_seen = e0.last_seen ∨ e2.last_seen = day) ∧
        (e2.last_info = e0.last_info ∨ e2.last_info ≠ []) ∧
        (e0.last_info ≠ [] → e2.last_info ≠ []) := by
  intro items
  induction items with
  | nil =>
    intro rows name e0 h
    exact ⟨e0, h, rfl, Or.inl rfl, Or.inl rfl, id⟩
  | cons x xs ih =>
    intro rows name e0 h
    by_cases hx : x.name = name
    · have h1 : dbLookup name (upsertOne rows x day) = some (updEntry x day e0) := by
        rw [← hx] at h ⊢
        exact upsertOne_lookup_self rows x day e0 h
      rcases ih (upsertOne rows x day) name (updEntry x day e0) h1
        with ⟨e2, he2, hf, hl, hi, hmono⟩
      refine ⟨e2, he2, hf, ?_, ?_, ?_⟩
      · rcases hl with hl | hl
        · exact Or.inr hl
        · exact Or.inr hl
      · rcases hi with hi | hi
        · by_cases hplat : x.platform ≠ []
          · refine Or.inr ?_
            rw [hi]
            show (if x.platform ≠ [] then x.platform else e0.last_info) ≠ []
            rw [if_pos hplat]
            exact hplat
          · refine Or.inl ?_
            rw [hi]
            show (if x.platform ≠ [] then x.platform else e0.last_info) = e0.last_info
            rw [if_neg hplat]
        · exact Or.inr hi
      · intro h0
        apply hmono
        show (if x.platform ≠ [] then x.platform else e0.last_info) ≠ []
        by_cases hplat : x.platform ≠ []
        · rw [if_pos hplat]
          exact hplat
        · rw [if_neg hplat]
          exact h0
    · exact ih _ name e0
        (upsertOne_lookup_other rows x day name e0 (fun hh => hx hh.symm) h)

/-- Claim C2: inserting any record list as a baseline into an empty ledger
and immediately asking for new items with the identical list yields the
empty novelty set. -/
theorem C2_baseline_roundtrip (items : List DramaItem) (day iso : Str) :
    db_find_new_items (db_insert_baseline emptyDB items day iso) items = [] := by
  unfold db_find_new_items
  rw [List.filter_eq_nil_iff]
  intro it hit
  have h := baseline_fold_covers day items emptyDB.dramas it hit
  intro hbad
  rw [Option.isNone_iff_eq_none] at hbad
  simp only [db_insert_baseline] at hbad
  rw [hbad] at h
  exact absurd h (by simp)

/-- Claim C3: ledger invariants — a baseline insert never overwrites an
existing entry (so `first_seen` is immutable), and an upsert keeps
`first_seen`, touches only `last_seen` (set to the run's day) and
`last_info`, and never replaces a stored non-empty `last_info` by an
empty incoming category. -/
theorem C3_ledger_invariants (db : DB) (items : List DramaItem)
    (day iso name : Str) (e0 : Entry)
    (h : dbLookup name db.dramas = some e0) :
    dbLookup name (db_insert_baseline db items day iso).dramas = some e0 ∧
    ∃ e2, dbLookup name (db_upsert_items db items day iso).dramas = some e2 ∧
      e2.first_seen = e0.first_seen ∧
      (e2.last_seen = e0.last_seen ∨ e2.last_seen = day) ∧
      (e2.last_info = e0.last_info ∨ e2.last_info ≠ []) ∧
      (e0.last_info ≠ [] → e2.last_info ≠ []) := by
  constructor
  · exact baseline_fold_preserves day items db.dramas name e0 h
  · exact upsert_fold_existing day items db.dramas name e0 h

/-- Claim C3 witness: upserting `Show A` with an empty category over a
ledger that stores `PlatformX` for it. -/
theorem C3_witness :
    dbLookup "Show A".data
      (db_insert_baseline dbShowA [mkItem "Show A".data []]
        "2026-10-12".data "iso2".data).dramas =
      some ⟨"2026-10-01".data, "2026-10-10".data, "PlatformX".data⟩ ∧
    ∃ e2, dbLookup "Show A".data
        (db_upsert_items dbShowA [mkItem "Show A".data []]
          "2026-10-12".data "iso2".data).dramas = some e2 ∧
      e2.first_seen = "2026-10-01".data ∧
      (e2.last_seen = "2026-10-10".data ∨ e2.last_seen = "2026-10-12".data) ∧
      (e2.last_info = "PlatformX".data ∨ e2.last_info ≠ []) ∧
      ("PlatformX".data ≠ ([] : Str) → e2.last_info ≠ []) :=
  C3_ledger_invariants dbShowA [mkItem "Show A".data []]
    "2026-10-12".data "iso2".data "Show A".data
    ⟨"2026-10-01".data, "2026-10-10".data, "PlatformX".data⟩ (by decide)

/-! ## Orchestrator path claims -/

/-- Claim C9: when the parser collects zero name elements, the run fails
with `noRecordsFound` before any store mutation — the ledger file state is
exactly the input state — and the process exits non-zero. -/
theorem C9_no_records_aborts (a : Args) (inp : RunInput)
    (h : (feed inp.events).names = []) :
    parse_drama_items inp.events = .error .noRecordsFound ∧
    (run a inp).result = .error .noRecordsFound ∧
    (run a inp).db = inp.db ∧
    main_exit a inp = 1 := by
  have hp : parse_drama_items inp.events = .error .noRecordsFound := by
    unfold parse_drama_items
    rw [if_pos h]
  refine ⟨hp, ?_, ?_, ?_⟩ <;> simp [run, main_exit, hp]

/-- Claim C9 witness: an empty event stream yields no names. -/
theorem C9_witness :
    parse_drama_items inputNoRecords.events = .error .noRecordsFound ∧
    (run argsDefault inputNoRecords).result = .error .noRecordsFound ∧
    (run argsDefault inputNoRecords).db = inputNoRecords.db ∧
    main_exit argsDefault inputNoRecords = 1 :=
  C9_no_records_aborts argsDefault inputNoRecords (by decide)

/-- Claim C5: a real (non-dry) run starting from an empty ledger takes the
baseline path — every current record is inserted as the baseline, the
formatter is never invoked, no message is sent, and the run exits 0. -/
theorem C5_empty_ledger_baseline (a : Args) (inp : RunInput)
    (items0 : List DramaItem) (n : Nat)
    (hdry : a.dryRun = false)
    (hparse : parse_drama_items inp.events = .ok items0)
    (htop : get_top_n_from_env inp.envTopN = .ok n)
    (hempty : (inp.db.getD emptyDB).dramas = []) :
    (run a inp).result = .ok 0 ∧
    main_exit a inp = 0 ∧
    (run a inp).rendered = [] ∧
    (run a inp).sent = [] ∧
    (run a inp).db =
      some (db_insert_baseline (inp.db.getD emptyDB) (items0.take n)
        inp.day inp.iso) ∧
    (∀ it ∈ items0.take n,
      (dbLookup it.name
        (db_insert_baseline (inp.db.getD emptyDB) (items0.take n)
          inp.day inp.iso).dramas).isSome) := by
  have hcond : ¬(a.dryRun = true ∧ inp.db = none) := by
    rintro ⟨hbad, -⟩
    rw [hdry] at hbad
    exact Bool.false_ne_true hbad
  have hisempty : db_is_empty (inp.db.getD emptyDB) = true := by
    unfold db_is_empty
    rw [hempty]
    rfl
  have hrun : run a inp =
      ⟨.ok 0, some (db_insert_baseline (inp.db.getD emptyDB) (items0.take n)
        inp.day inp.iso), [], [], 0, items0.take n⟩ := by
    unfold run
    rw [hparse, htop]
    dsimp only
    rw [if_neg hcond, if_pos hisempty, if_neg (show ¬ a.dryRun = true by simp [hdry])]
  refine ⟨by rw [hrun], by simp [main_exit, hrun], by rw [hrun], by rw [hrun],
    by rw [hrun], ?_⟩
  intro it hit
  simp only [db_insert_baseline]
  exact baseline_fold_covers inp.day (items0.take n) (inp.db.getD emptyDB).dramas it hit

/-- Claim C5 witness: first run over `demoEvents` with a missing ledger
file — baseline established, nothing rendered or sent, exit 0. -/
theorem C5_witness :
    (run argsDefault inputBaseline).result = .ok 0 ∧
    (run argsDefault inputBaseline).rendered = [] ∧
    (run argsDefault inputBaseline).sent = [] ∧
    main_exit argsDefault inputBaseline = 0 := by
  have h := C5_empty_ledger_baseline argsDefault inputBaseline
    [mkItem "Show A".data "PlatformX 上线首日".data,
     mkItem "Show B".data "PlatformY 上线8天".data] 10
    rfl (by decide) (by decide) (by decide)
  exact ⟨h.1, h.2.2.1, h.2.2.2.1, h.2.1⟩

/-- Claim C1 counterexample: on the delta path with a new record and a
failing sender, the run ends with `tgSendFailed` and the upsert was
performed zero times — the ledger still holds exactly its pre-run rows,
refuting "the upsert still happens exactly once". -/
theorem C1_counterexample :
    (run argsDefault inputSendFail).result = .error .tgSendFailed ∧
    (run argsDefault inputSendFail).upserts = 0 ∧
    (run argsDefault inputSendFail).db = some dbShowA := by
  decide

/-- Claim C1 (amended): on the delta path the upsert of all current
records happens exactly once when the send step succeeds or is skipped
(no new records, or notifications suppressed); but when the send step
raises, the run aborts with `tgSendFailed` before the upsert, leaving the
ledger unchanged. -/
theorem C1_delta_upsert_depends_on_send (a : Args) (inp : RunInput)
    (items0 : List DramaItem) (n : Nat)
    (hdry : a.dryRun = false)
    (hparse : parse_drama_items inp.events = .ok items0)
    (htop : get_top_n_from_env inp.envTopN = .ok n)
    (hnonempty : (inp.db.getD emptyDB).dramas ≠ []) :
    ((db_find_new_items (inp.db.getD emptyDB) (items0.take n) = [] ∨
        a.noTelegram = true) →
      (run a inp).upserts = 1 ∧
      (run a inp).db = some (db_upsert_items (inp.db.getD emptyDB)
        (items0.take n) inp.day inp.iso) ∧
      (run a inp).result = .ok 0) ∧
    ((db_find_new_items (inp.db.getD emptyDB) (items0.take n) ≠ [] ∧
        a.noTelegram = false ∧ inp.botToken ≠ [] ∧ inp.chatId ≠ [] ∧
        inp.sendOk = true) →
      (run a inp).upserts = 1 ∧
      (run a inp).db = some (db_upsert_items (inp.db.getD emptyDB)
        (items0.take n) inp.day inp.iso) ∧
      (run a inp).result = .ok 0) ∧
    ((db_find_new_items (inp.db.getD emptyDB) (items0.take n) ≠ [] ∧
        a.noTelegram = false ∧ inp.botToken ≠ [] ∧ inp.chatId ≠ [] ∧
        inp.sendOk = false) →
      (run a inp).upserts = 0 ∧
      (run a inp).db = some (inp.db.getD emptyDB) ∧
      (run a inp).result = .error .tgSendFailed ∧
      main_exit a inp = 1) := by
  have hcond : ¬(a.dryRun = true ∧ inp.db = none) := by
    rintro ⟨hbad, -⟩
    rw [hdry] at hbad
    exact Bool.false_ne_true hbad
  have hisempty : ¬ db_is_empty (inp.db.getD emptyDB) = true := by
    unfold db_is_empty
    simpa using hnonempty
  refine ⟨?_, ?_, ?_⟩
  · intro hskip
    have hsend : ¬(db_find_new_items (inp.db.getD emptyDB) (items0.take n) ≠ [] ∧
        a.noTelegram = false) := by
      rcases hskip with hnil | hsup
      · rintro ⟨hbad, -⟩
        exact hbad hnil
      · rintro ⟨-, hbad⟩
        rw [hsup] at hbad
        exact Bool.noConfusion hbad
    have hrun : run a inp =
        ⟨.ok 0, some (db_upsert_items (inp.db.getD emptyDB) (items0.take n)
          inp.day inp.iso), [], [], 1, items0.take n⟩ := by
      unfold run
      rw [hparse, htop]
      dsimp only
      rw [if_neg hcond, if_neg hisempty,
        if_neg (show ¬ a.dryRun = true by simp [hdry]), if_neg hsend]
    exact ⟨by rw [hrun], by rw [hrun], by rw [hrun]⟩
  · rintro ⟨hnew, hsup, htok, hchat, hok⟩
    have hrun : run a inp =
        ⟨.ok 0, some (db_upsert_items (inp.db.getD emptyDB) (items0.take n)
          inp.day inp.iso),
          [build_telegram_text (db_find_new_items (inp.db.getD emptyDB)
            (items0.take n)) inp.datetime],
          [build_telegram_text (db_find_new_items (inp.db.getD emptyDB)
            (items0.take n)) inp.datetime], 1, items0.take n⟩ := by
      unfold run
      rw [hparse, htop]
      dsimp only
      rw [if_neg hcond, if_neg hisempty,
        if_neg (show ¬ a.dryRun = true by simp [hdry]),
        if_pos ⟨hnew, hsup⟩,
        if_neg (show ¬(inp.botToken = [] ∨ inp.chatId = []) by
          rintro (hbad | hbad)
          · exact htok hbad
          · exact hchat hbad),
        if_neg (show ¬ inp.sendOk = false by
          rw [hok]
          exact fun hb => Bool.noConfusion hb)]
    exact ⟨by rw [hrun], by rw [hrun], by rw [hrun]⟩
  · rintro ⟨hnew, hsup, htok, hchat, hfail⟩
    have hrun : run a inp =
        ⟨.error .tgSendFailed, some (inp.db.getD emptyDB),
          [build_telegram_text (db_find_new_items (inp.db.getD emptyDB)
            (items0.take n)) inp.datetime], [], 0, items0.take n⟩ := by
      unfold run
      rw [hparse, htop]
      dsimp only
      rw [if_neg hcond, if_neg hisempty,
        if_neg (show ¬ a.dryRun = true by simp [hdry]),
        if_pos ⟨hnew, hsup⟩,
        if_neg (show ¬(inp.botToken = [] ∨ inp.chatId = []) by
          rintro (hbad | hbad)
          · exact htok hbad
          · exact hchat hbad),
        if_pos hfail]
    exact ⟨by rw [hrun], by rw [hrun], by rw [hrun], by simp [main_exit, hrun]⟩

/-- Claim C1 amended witness: same delta path with a succeeding sender —
the upsert happens exactly once and the run exits 0. -/
theorem C1_witness :
    (run argsDefault inputSendOk).upserts = 1 ∧
    (run argsDefault inputSendOk).result = .ok 0 := by
  have h := C1_delta_upsert_depends_on_send argsDefault inputSendOk
    [mkItem "Show A".data "PlatformX 上线首日".data,
     mkItem "Show B".data "PlatformY 上线8天".data] 10
    rfl (by decide) (by decide) (by decide)
  have h2 := h.2.1 ⟨by decide, rfl, by decide, by decide, rfl⟩
  exact ⟨h2.1, h2.2.2⟩

/-- Claim C6 counterexample: with no configured limit (`envTopN = none`)
and eleven extracted records, the run still truncates the record list —
to the default ten — refuting "truncation occurs only if such a limit is
configured". -/
theorem C6_counterexample :
    input11.envTopN = none ∧
    (feed input11.events).names.length = 11 ∧
    (run argsDefault input11).items.length = 10 := by
  decide

/-- Claim C6 (amended): the orchestrator always truncates the extracted
records to a top-N count: the configured value when it parses as an
integer in 1–100, an error when it is a non-integer or out of range, and
the default 10 when the variable is unset or blank. -/
theorem C6_topn_truncation (s : Str) (nv : Int) (a : Args) (inp : RunInput)
    (items0 : List DramaItem) (n : Nat) :
    (get_top_n_from_env none = .ok DEFAULT_TOP_N) ∧
    (trimWs s = [] → get_top_n_from_env (some s) = .ok DEFAULT_TOP_N) ∧
    (trimWs s ≠ [] → parseIntStr (trimWs s) = none →
      get_top_n_from_env (some s) = .error .topNBadInt) ∧
    (parseIntStr (trimWs s) = some nv → (nv ≤ 0 ∨ 100 < nv) →
      get_top_n_from_env (some s) = .error .topNOutOfRange) ∧
    (parseIntStr (trimWs s) = some nv → 0 < nv → nv ≤ 100 →
      get_top_n_from_env (some s) = .ok nv.toNat) ∧
    (parse_drama_items inp.events = .ok items0 →
      get_top_n_from_env inp.envTopN = .ok n →
      (run a inp).items = items0.take n) := by
  refine ⟨rfl, ?_, ?_, ?_, ?_, ?_⟩
  · intro h
    unfold get_top_n_from_env
    rw [show trimWs ((some s).getD []) = trimWs s from rfl, h]
    rfl
  · intro hne hparse
    unfold get_top_n_from_env
    rw [show trimWs ((some s).getD []) = trimWs s from rfl, if_neg hne, hparse]
  · intro hparse hrange
    unfold get_top_n_from_env
    have hne : trimWs s ≠ [] := by
      intro hz
      rw [hz] at hparse
      exact Option.noConfusion hparse
    rw [show trimWs ((some s).getD []) = trimWs s from rfl, if_neg hne, hparse]
    dsimp only
    rw [if_pos hrange]
  · intro hparse h0 h100
    unfold get_top_n_from_env
    have hne : trimWs s ≠ [] := by
      intro hz
      rw [hz] at hparse
      exact Option.noConfusion hparse
    rw [show trimWs ((some s).getD []) = trimWs s from rfl, if_neg hne, hparse]
    dsimp only
    rw [if_neg (show ¬(nv ≤ 0 ∨ 100 < nv) by omega)]
  · intro hparse htop
    unfold run
    rw [hparse, htop]
    dsimp only
    split
    · rfl
    · split
      · split
        · rfl
        · rfl
      · split
        · rfl
        · split
          · split
            · rfl
            · split
              · rfl
              · rfl
          · rfl

/-- Claim C6 amended witness: unset variable gives the default 10, and a
run over eleven records is truncated to the first ten paired records. -/
theorem C6_witness :
    get_top_n_from_env none = .ok DEFAULT_TOP_N ∧
    (run argsDefault input11).items =
      (dedupByName (pairItems (feed events11).names (feed events11).infos)).take 10 := by
  have h := C6_topn_truncation [] 1 argsDefault input11
    (dedupByName (pairItems (feed events11).names (feed events11).infos)) 10
  exact ⟨h.1, h.2.2.2.2.2 (by decide) (by decide)⟩

end DramaRadar
